import Mathlib

/-!
Verification of the grokbot memory/context engine against its specification.

The JavaScript sources are shallowly embedded: SQLite tables become
association lists keyed by their primary keys, prepared statements become
pure functions on a `Db` record, `Date.now()` becomes an explicit `now : Nat`
parameter (milliseconds), and `better-sqlite3`'s `db.transaction` wrapper
becomes a combinator that rolls the state back when any step fails.
-/

/- ## Association-list store primitives -/

/-- Lookup by key in an association list (first binding wins, as for a
SQL primary key which holds at most one row per key). -/
def alookup {α β : Type} [DecidableEq α] : List (α × β) → α → Option β
  | [], _ => none
  | (k2, v) :: rest, k => if k2 = k then some v else alookup rest k

/-- Upsert: replace the binding for `k` in place, or append a new one.
Mirrors `INSERT ... ON CONFLICT ... DO UPDATE`. -/
def aset {α β : Type} [DecidableEq α] : List (α × β) → α → β → List (α × β)
  | [], k, v => [(k, v)]
  | (k2, v2) :: rest, k, v =>
    if k2 = k then (k, v) :: rest else (k2, v2) :: aset rest k v

/- ## Character and string utilities shared by the embeddings -/

/-- Case-insensitive anchored match of a literal pattern, as the literal
part of a `/.../i` JavaScript regex. -/
def matchesAt : List Char → List Char → Bool
  | [], _ => true
  | _ :: _, [] => false
  | p :: ps, c :: cs => (c.toLower = p.toLower) && matchesAt ps cs

/-- Greedy capture of `[^.!?]+`: the run of characters up to the first
sentence terminator. -/
def takeCapture : List Char → List Char
  | [] => []
  | c :: cs => if c = '.' ∨ c = '!' ∨ c = '?' then [] else c :: takeCapture cs

/-- Try each alternative pattern at the current position; a match whose
capture group would be empty fails, as for the regex `([^.!?]+)`. -/
def tryHintAt : List (List Char) → List Char → Option (List Char)
  | [], _ => none
  | p :: ps, s =>
    if matchesAt p s then
      let cap := takeCapture (s.drop p.length)
      if cap = [] then tryHintAt ps s else some cap
    else tryHintAt ps s

/-- Scan left to right for the first position where one of the alternative
patterns matches with a non-empty capture, as `String.match` does. -/
def scanHint (pats : List (List Char)) : List Char → Option (List Char)
  | [] => none
  | c :: cs =>
    match tryHintAt pats (c :: cs) with
    | some cap => some cap
    | none => scanHint pats cs

/-- Boolean prefix test on character lists. -/
def isPrefixOfCh : List Char → List Char → Bool
  | [], _ => true
  | _ :: _, [] => false
  | a :: as, b :: bs => (a = b) && isPrefixOfCh as bs

/-- `t.includes(s)` on character lists: contiguous-substring containment. -/
def containsSub (s : List Char) : List Char → Bool
  | [] => isPrefixOfCh s []
  | c :: ts => isPrefixOfCh s (c :: ts) || containsSub s ts

/-- Last four characters of a string, as `s.slice(-4)`. -/
def lastFour (s : String) : String :=
  String.mk (s.data.drop (s.data.length - 4))

/-- `toLowerCase()`; ASCII case folding (the inputs under study are ASCII). -/
def toLowerCh (s : String) : String := String.mk (s.data.map Char.toLower)

/-- ASCII whitespace, the characters `trim()` strips on the inputs under
study. -/
def isWsCh (c : Char) : Bool := c = ' ' ∨ c = '\t' ∨ c = '\n' ∨ c = '\r'

/-- `trim()`: strip leading and trailing whitespace. -/
def trimCh (s : String) : String :=
  String.mk (((s.data.dropWhile isWsCh).reverse.dropWhile isWsCh).reverse)

/-- Worker for newline splitting. -/
def splitOnNlAux : List Char → List Char → List String
  | [], acc => [String.mk acc.reverse]
  | c :: cs, acc =>
    if c = '\n' then String.mk acc.reverse :: splitOnNlAux cs []
    else splitOnNlAux cs (c :: acc)

/-- `split('\n')`. -/
def splitOnNl (s : String) : List String := splitOnNlAux s.data []

/-- `endsWith(suffix)`. -/
def endsWithCh (s suffix : String) : Bool :=
  isPrefixOfCh suffix.data.reverse s.data.reverse

/- ## memory.js: fact extraction and summary merging -/

/-- The `SUMMARY_HINTS` table of memory.js (lines 394-400): each entry is
the list of literal alternatives of the hint regex plus its label. -/
def SUMMARY_HINTS : List (List (List Char) × String) :=
  [ ([("my name is ".data)], "Name"),
    ([("call me ".data)], "Preferred name"),
    ([("i like ".data), ("i love ".data)], "Likes"),
    ([("i hate ".data), ("i dislike ".data)], "Dislikes"),
    ([("my pronouns are ".data)], "Pronouns") ]

/-- `extractSummaryNotes` (memory.js 402-411): each hint contributes at most
one note, in hint-table order. -/
def extractSummaryNotes (message : String) : List String :=
  SUMMARY_HINTS.foldr
    (fun hint acc =>
      match scanHint hint.1 message.data with
      | some cap => (hint.2 ++ ": " ++ trimCh (String.mk cap)) :: acc
      | none => acc)
    []

/-- Insertion-order set add, as `Set.add` in JavaScript. -/
def dedupAdd (acc : List String) (x : String) : List String :=
  if x ∈ acc then acc else acc ++ [x]

/-- `normalizeSummary` of the live memory.js (lines 413-421): splits the
current summary into lines, dedupes them as a whole-line set, adds the new
notes to the set, and joins. -/
def normalizeSummary (currentSummary : String) (newNotes : List String) : String :=
  if newNotes = [] then currentSummary
  else
    let lines := if currentSummary = "" then [] else splitOnNl currentSummary
    let base := (lines.filter (fun l => l ≠ "")).foldl dedupAdd []
    String.intercalate "\n" (newNotes.foldl dedupAdd base)

/-- `extractLabel` of the earlier memory.js revision (part_002 92-98):
the text before the first colon, trimmed; the whole trimmed line when no
colon is present. -/
def extractLabel (line : String) : String :=
  trimCh (String.mk (line.data.takeWhile (fun c => c ≠ ':')))

/-- One step of the label-map construction of the earlier revision's
`normalizeSummary`: record the label order on first appearance and map the
label to the latest line carrying it. -/
def labelStep (acc : List String × List (String × String)) (line : String) :
    List String × List (String × String) :=
  let lab := extractLabel line
  let order := if (alookup acc.2 lab).isSome then acc.1 else acc.1 ++ [lab]
  (order, aset acc.2 lab line)

/-- `normalizeSummary` of the earlier memory.js revision (part_002 83-119):
label-keyed replacement preserving the order of first appearance. -/
def normalizeSummaryRev (currentSummary : String) (newNotes : List String) : String :=
  if newNotes = [] then currentSummary
  else
    let existing :=
      (if currentSummary = "" then [] else splitOnNl currentSummary).filter
        (fun l => l ≠ "")
    let acc := newNotes.foldl labelStep (existing.foldl labelStep ([], []))
    String.intercalate "\n" (acc.1.filterMap (alookup acc.2))

/-- Number of summary lines carrying a given label. -/
def labelCount (summary : String) (label : String) : Nat :=
  ((splitOnNl summary).filter (fun l => extractLabel l = label)).length

/- ## memory.js: the persistent store -/

/-- A `user_settings` row (the `user_id` key is the association-list key). -/
structure UserSettingsRow where
  memory_enabled : Nat
  profile_summary : String
  message_count : Nat
  last_summary_at : Nat
deriving DecidableEq

/-- A `user_messages` row (the autoincrement id is the list position). -/
structure MessageRow where
  user_id : String
  channel_id : String
  guild_id : Option String
  content : String
  created_at : Nat
deriving DecidableEq

/-- A `channel_profiles` row. -/
structure ChannelProfileRow where
  guild_id : Option String
  summary : String
  message_count : Nat
  last_summary_at : Nat
deriving DecidableEq

/-- A `guild_profiles` row. -/
structure GuildProfileRow where
  summary : String
  message_count : Nat
  last_summary_at : Nat
deriving DecidableEq

/-- A `guild_users` row, keyed by (guild_id, user_id). -/
structure GuildUserRow where
  display_name : String
  last_seen_at : Nat
  joined_at : Nat
deriving DecidableEq

/-- The SQLite database of memory.js, restricted to the tables the claims
touch. -/
structure Db where
  user_messages : List MessageRow
  user_settings : List (String × UserSettingsRow)
  channel_profiles : List (String × ChannelProfileRow)
  guild_profiles : List (String × GuildProfileRow)
  guild_users : List ((String × String) × GuildUserRow)
deriving DecidableEq

/-- The 24-hour staleness threshold of memory.js (line 26), milliseconds. -/
def TWENTY_FOUR_HOURS_MS : Nat := 24 * 60 * 60 * 1000

/-- `getUserSettings` (memory.js 423-435): row lookup with the lazy default
(memory enabled, empty summary, zero counts). -/
def getUserSettings (db : Db) (userId : String) : UserSettingsRow :=
  (alookup db.user_settings userId).getD ⟨1, "", 0, 0⟩

/-- The channel-profile read of `recordUserMessage` (memory.js 532-539):
the stored row, or the in-code default object when absent. -/
def getChannelProfileOr (db : Db) (channelId : String) (guildId : Option String) :
    ChannelProfileRow :=
  (alookup db.channel_profiles channelId).getD ⟨guildId, "", 0, 0⟩

/-- The guild-profile read of `recordUserMessage` (memory.js 562-568):
the stored row, or the in-code default object when absent. -/
def getGuildProfileOr (db : Db) (guildId : String) : GuildProfileRow :=
  (alookup db.guild_profiles guildId).getD ⟨"", 0, 0⟩

/-- Arguments of `recordUserMessage`; `Option` models the JavaScript
null/undefined-falsy guards on `guildId` and `displayName`. -/
structure RecordArgs where
  userId : String
  channelId : String
  guildId : Option String
  content : String
  displayName : Option String
deriving DecidableEq

/-- Step 1 of `recordUserMessage` (memory.js 508): append the raw message. -/
def stepInsertMessage (a : RecordArgs) (now : Nat) (db : Db) : Db :=
  { db with user_messages :=
      db.user_messages ++ [⟨a.userId, a.channelId, a.guildId, a.content, now⟩] }

/-- Step 2 of `recordUserMessage` (memory.js 509-525): bump the user's
message count and conditionally merge notes / refresh `last_summary_at`. -/
def stepUserSettings (a : RecordArgs) (now : Nat) (db : Db) : Db :=
  let notes := extractSummaryNotes a.content
  let current := getUserSettings db a.userId
  let nextCount := current.message_count + 1
  let timeSince := now - current.last_summary_at
  let shouldUpdate := decide (notes ≠ []) || decide (timeSince > TWENTY_FOUR_HOURS_MS)
  let due := (decide (notes ≠ []) && decide (nextCount % 20 = 0))
      || decide (timeSince > TWENTY_FOUR_HOURS_MS)
  let updatedSummary :=
    if due && shouldUpdate then normalizeSummary current.profile_summary notes
    else current.profile_summary
  let updatedLast := if due then now else current.last_summary_at
  let table := aset db.user_settings a.userId
    ⟨current.memory_enabled, updatedSummary, nextCount, updatedLast⟩
  { db with user_settings := table }

/-- Step 3 of `recordUserMessage` (memory.js 527-529): upsert the guild user
cache when both guild id and display name are present; `joined_at` is set
once (the upsert passes 0 and the SQL keeps a non-zero existing value). -/
def stepGuildUser (a : RecordArgs) (now : Nat) (db : Db) : Db :=
  match a.guildId, a.displayName with
  | some g, some d =>
    let j := match alookup db.guild_users (g, a.userId) with
      | some r => r.joined_at
      | none => 0
    { db with guild_users := aset db.guild_users (g, a.userId) ⟨d, now, j⟩ }
  | _, _ => db

/-- Step 4 of `recordUserMessage` (memory.js 531-559): the channel-scope
profile update, cadence 20. -/
def stepChannelProfile (a : RecordArgs) (now : Nat) (db : Db) : Db :=
  if a.channelId = "" then db
  else
    let notes := extractSummaryNotes a.content
    let profile := getChannelProfileOr db a.channelId a.guildId
    let nextCount := profile.message_count + 1
    let timeSince := now - profile.last_summary_at
    let shouldUpdate := decide (notes ≠ []) || decide (timeSince > TWENTY_FOUR_HOURS_MS)
    let due := (decide (notes ≠ []) && decide (nextCount % 20 = 0))
        || decide (timeSince > TWENTY_FOUR_HOURS_MS)
    let updatedSummary :=
      if due && shouldUpdate then normalizeSummary profile.summary notes
      else profile.summary
    let updatedLast := if due then now else profile.last_summary_at
    let table := aset db.channel_profiles a.channelId
      ⟨a.guildId, updatedSummary, nextCount, updatedLast⟩
    { db with channel_profiles := table }

/-- Step 5 of `recordUserMessage` (memory.js 561-582): the guild-scope
profile update, cadence 30. -/
def stepGuildProfile (a : RecordArgs) (now : Nat) (db : Db) : Db :=
  match a.guildId with
  | none => db
  | some g =>
    let notes := extractSummaryNotes a.content
    let profile := getGuildProfileOr db g
    let nextCount := profile.message_count + 1
    let timeSince := now - profile.last_summary_at
    let shouldUpdate := decide (notes ≠ []) || decide (timeSince > TWENTY_FOUR_HOURS_MS)
    let due := (decide (notes ≠ []) && decide (nextCount % 30 = 0))
        || decide (timeSince > TWENTY_FOUR_HOURS_MS)
    let updatedSummary :=
      if due && shouldUpdate then normalizeSummary profile.summary notes
      else profile.summary
    let updatedLast := if due then now else profile.last_summary_at
    let table := aset db.guild_profiles g ⟨updatedSummary, nextCount, updatedLast⟩
    { db with guild_profiles := table }

/-- The statement sequence of `recordUserMessage` (memory.js 507-583), in
source order: message insert, user-settings upsert, guild-user upsert,
channel-profile upsert, guild-profile upsert. -/
def recordSteps (a : RecordArgs) (now : Nat) : List (Db → Db) :=
  [stepInsertMessage a now, stepUserSettings a now, stepGuildUser a now,
   stepChannelProfile a now, stepGuildProfile a now]

/-- Run a sequence of infallible steps. -/
def applySteps (steps : List (Db → Db)) (db : Db) : Db :=
  steps.foldl (fun d f => f d) db

/-- Run fallible steps outside any transaction: each completed step is
committed on its own, so a failure keeps all earlier effects (the flag is
false when a step failed). -/
def runPlain : List (Db → Option Db) → Db → Db × Bool
  | [], db => (db, true)
  | f :: fs, db =>
    match f db with
    | none => (db, false)
    | some d2 => runPlain fs d2

/-- Run fallible steps inside one `db.transaction` of better-sqlite3:
a thrown error rolls the whole unit back to the initial state. -/
def runTx (steps : List (Db → Option Db)) (db : Db) : Db × Bool :=
  let r := runPlain steps db
  if r.2 then r else (db, false)

/-- Inject a storage failure at step index `k` of a step sequence. -/
def injectFail (k : Nat) : List (Db → Db) → List (Db → Option Db)
  | [] => []
  | f :: fs =>
    (if k = 0 then fun _ => none else fun d => some (f d)) :: injectFail (k - 1) fs

/-- `recordUserMessage` with no failure: the committed transaction. -/
def recordUserMessage (a : RecordArgs) (now : Nat) (db : Db) : Db :=
  applySteps (recordSteps a now) db

/-- `recordUserMessage` with a storage failure injected at step `k`; the
`db.transaction` wrapper makes the whole unit roll back. -/
def recordUserMessageFailAt (a : RecordArgs) (now k : Nat) (db : Db) : Db × Bool :=
  runTx (injectFail k (recordSteps a now)) db

/-- The claim-side summary-refresh gate, transcribed from the specification:
notes were extracted and the updated count is a cadence multiple, or more
than 24 hours passed since the last refresh. -/
def claimDue (cadence : Nat) (notes : List String) (count last now : Nat) : Bool :=
  (decide (notes ≠ []) && decide ((count + 1) % cadence = 0))
    || decide (now - last > TWENTY_FOUR_HOURS_MS)

/- ## memory.js: destructive operations -/

/-- The statement sequence of `forgetUser` (memory.js 455-459): delete the
user's messages, then upsert the settings row with summary and counters
cleared and the enabled flag preserved. NOT wrapped in a transaction. -/
def forgetUserSteps (userId : String) : List (Db → Db) :=
  [ fun db =>
      { db with user_messages := db.user_messages.filter (fun m => m.user_id ≠ userId) },
    fun db =>
      let current := getUserSettings db userId
      let table := aset db.user_settings userId ⟨current.memory_enabled, "", 0, 0⟩
      { db with user_settings := table } ]

/-- `forgetUser` when every statement succeeds. -/
def forgetUser (userId : String) (db : Db) : Db :=
  applySteps (forgetUserSteps userId) db

/-- `forgetUser` with a storage failure injected at statement `k`; without a
transaction, earlier statements stay committed. -/
def forgetUserFailAt (userId : String) (k : Nat) (db : Db) : Db × Bool :=
  runPlain (injectFail k (forgetUserSteps userId)) db

/-- The statement sequence of `resetChannelMemory` (memory.js 485-488),
also not wrapped in a transaction. -/
def resetChannelMemorySteps (channelId : String) : List (Db → Db) :=
  [ fun db =>
      { db with user_messages := db.user_messages.filter (fun m => m.channel_id ≠ channelId) },
    fun db =>
      { db with channel_profiles := db.channel_profiles.filter (fun p => p.1 ≠ channelId) } ]

/-- The statement sequence of `resetGuildMemory` (memory.js 473-478),
also not wrapped in a transaction. -/
def resetGuildMemorySteps (guildId : String) : List (Db → Db) :=
  [ fun db =>
      { db with user_messages := db.user_messages.filter (fun m => m.guild_id ≠ some guildId) },
    fun db =>
      { db with guild_profiles := db.guild_profiles.filter (fun p => p.1 ≠ guildId) },
    fun db =>
      { db with channel_profiles :=
          db.channel_profiles.filter (fun p => p.2.guild_id ≠ some guildId) },
    fun db =>
      { db with guild_users := db.guild_users.filter (fun u => u.1.1 ≠ guildId) } ]

/- ## rateLimit.js -/

/-- Cooldown window of rateLimit.js (line 1), milliseconds. -/
def COOLDOWN_MS : Nat := 3000

/-- One per-identity entry of the rate-limiter map. -/
structure RLEntry where
  lastAt : Nat
  lastPrompt : String
  duplicateCount : Nat
deriving DecidableEq

/-- The in-process rate-limiter state. -/
abbrev RLState := List (String × RLEntry)

/-- Outcome of a rate-limit check. -/
structure RLResult where
  allow : Bool
  message : Option String
deriving DecidableEq

/-- Rejection line for a repeated identical prompt (rateLimit.js 18). -/
def stopSpamMsg : String := "-# stop spamming twin im only replying once"

/-- Rejection line for a distinct prompt inside the cooldown (rateLimit.js 26). -/
def chillMsg : String := "-# chill for 3s then try again"

/-- `checkRateLimit` (rateLimit.js 5-34). -/
def checkRateLimit (st : RLState) (userId prompt : String) (now : Nat) :
    RLResult × RLState :=
  let entry := (alookup st userId).getD ⟨0, "", 0⟩
  if now - entry.lastAt < COOLDOWN_MS then
    if prompt = entry.lastPrompt then
      if entry.duplicateCount ≥ 1 then
        (⟨false, some stopSpamMsg⟩,
         aset st userId ⟨entry.lastAt, entry.lastPrompt, entry.duplicateCount + 1⟩)
      else
        (⟨true, none⟩,
         aset st userId ⟨now, entry.lastPrompt, entry.duplicateCount + 1⟩)
    else
      (⟨false, some chillMsg⟩, aset st userId entry)
  else
    (⟨true, none⟩, aset st userId ⟨now, prompt, 0⟩)

/- ## editSync.js -/

/-- Edit-eligibility window (editSync.js 1), milliseconds. -/
def EDIT_WINDOW_MS : Nat := 60000

/-- Edit throttle window (editSync.js 2), milliseconds. -/
def EDIT_THROTTLE_MS : Nat := 2000

/-- One tracked source message of the edit-sync map. -/
structure EditEntry where
  botReplyId : String
  createdAt : Nat
  lastEditAt : Nat
deriving DecidableEq

/-- The in-process edit-sync state. -/
abbrev EditState := List (String × EditEntry)

/-- `trackReply` (editSync.js 6-12). -/
def trackReply (st : EditState) (userMessageId botReplyId : String) (now : Nat) :
    EditState :=
  aset st userMessageId ⟨botReplyId, now, 0⟩

/-- `shouldHandleEdit` (editSync.js 14-23): untracked or expired entries are
refused, a second edit inside the throttle window is refused, and an accepted
edit stamps `lastEditAt`. -/
def shouldHandleEdit (st : EditState) (userMessageId : String) (now : Nat) :
    Bool × EditState :=
  match alookup st userMessageId with
  | none => (false, st)
  | some e =>
    if now - e.createdAt > EDIT_WINDOW_MS then (false, st)
    else if now - e.lastEditAt < EDIT_THROTTLE_MS then (false, st)
    else (true, aset st userMessageId ⟨e.botReplyId, e.createdAt, now⟩)

/- ## llm.js: completion client -/

/-- The generic fallback line of llm.js (lines 74-75). -/
def fallbackErrorLine : String := "cant answer rn bro too busy gooning (grok api error)"

/-- The capability-mismatch message of llm.js (lines 284 and 306). -/
def visionUnsupportedMsg : String :=
  "image input needs a vision-capable model. set GROK_VISION_MODEL or use a multimodal GROK_MODEL."

/-- The default completion text when a parsed body has no content (llm.js 248). -/
def idkLine : String := "idk tbh"

/-- Match of the fragment regex piece `not\s+enabled`. -/
def matchNotEnabledAt (s : List Char) : Bool :=
  if isPrefixOfCh ("not".data) s then
    let rest := s.drop 3
    let ws := rest.takeWhile (fun c => c = ' ' ∨ c = '\t' ∨ c = '\n' ∨ c = '\r')
    ws ≠ [] && isPrefixOfCh ("enabled".data) (rest.drop ws.length)
  else false

/-- Scan for `not\s+enabled` anywhere in a character list. -/
def containsNotEnabled : List Char → Bool
  | [] => false
  | c :: cs => matchNotEnabledAt (c :: cs) || containsNotEnabled cs

/-- The error-body classifier of llm.js 238:
`/image|vision|multimodal|unsupported|not\s+enabled/i`. -/
def visionErrorBody (body : String) : Bool :=
  let t := (toLowerCh body).data
  containsSub ("image".data) t || containsSub ("vision".data) t
    || containsSub ("multimodal".data) t || containsSub ("unsupported".data) t
    || containsNotEnabled t

/-- Failure modes a single completion attempt can surface. -/
inductive LLMFailure where
  | visionUnsupported
  | other (msg : String)
deriving DecidableEq

/-- The observable part of one HTTP completion response: `ok` status, the
error body text, and for 2xx responses the parsed message content
(`jsonContent = none` models a body `res.json()` cannot parse; the inner
option is the optional `choices[0].message.content`). -/
structure HttpAttempt where
  ok : Bool
  bodyText : String
  jsonContent : Option (Option String)
deriving DecidableEq

/-- `callOnce` (llm.js 185-249) over the observable response; `none` as the
whole attempt models `fetch` itself throwing (network error / timeout). -/
def callOnce (hasImages : Bool) (attempt : Option HttpAttempt) :
    Except LLMFailure String :=
  match attempt with
  | none => Except.error (LLMFailure.other "network")
  | some r =>
    if !r.ok then
      if hasImages && visionErrorBody r.bodyText then
        Except.error LLMFailure.visionUnsupported
      else Except.error (LLMFailure.other r.bodyText)
    else
      match r.jsonContent with
      | none => Except.error (LLMFailure.other "malformed body")
      | some c =>
        match c with
        | some s => Except.ok (if trimCh s = "" then idkLine else trimCh s)
        | none => Except.ok idkLine

/-- `getLLMResponse` (llm.js 251-312), returning the resolved text together
with the number of attempts performed (the retry happens after a short fixed
delay, which has no observable effect here). -/
def getLLMResponse (hasImages : Bool) (first retry : Option HttpAttempt) :
    String × Nat :=
  match callOnce hasImages first with
  | Except.ok s => (s, 1)
  | Except.error LLMFailure.visionUnsupported => (visionUnsupportedMsg, 1)
  | Except.error (LLMFailure.other _) =>
    match callOnce hasImages retry with
    | Except.ok s => (s, 2)
    | Except.error LLMFailure.visionUnsupported => (visionUnsupportedMsg, 2)
    | Except.error (LLMFailure.other _) => (fallbackErrorLine, 2)

/- ## index.js / media: the image-fetch SSRF and size guard -/

/-- `MAX_IMAGE_BYTES` (index.js 132). -/
def MAX_IMAGE_BYTES : Nat := 5 * 1024 * 1024

/-- `IMAGE_MIME` (index.js 135). -/
def IMAGE_MIME : List String := ["image/png", "image/jpeg", "image/webp", "image/gif"]

/-- A parsed URL host: a DNS name, an IPv4 literal, or an IPv6 literal. -/
inductive Host where
  | name (s : String)
  | ip4 (a b c d : Nat)
  | ip6 (s : String)
deriving DecidableEq

/-- `isPrivateIp` (index.js 449-468): RFC1918 / loopback / link-local IPv4
ranges, and the loopback, unique-local and link-local IPv6 prefixes; a
non-IP string is neither IPv4 nor IPv6 and falls through to false. -/
def isPrivateIp : Host → Bool
  | Host.ip4 a b _ _ =>
    decide (a = 10) || decide (a = 127) || (decide (a = 169) && decide (b = 254))
      || (decide (a = 172) && decide (16 ≤ b) && decide (b ≤ 31))
      || (decide (a = 192) && decide (b = 168))
  | Host.ip6 s =>
    let l := toLowerCh s
    decide (l = "::1") || isPrefixOfCh ("fc".data) l.data || isPrefixOfCh ("fd".data) l.data
      || isPrefixOfCh ("fe80".data) l.data
  | Host.name _ => false

/-- `net.isIP(hostname)` truthiness. -/
def isIpHost : Host → Bool
  | Host.name _ => false
  | _ => true

/-- The `hostname === 'localhost'` check (index.js 479). -/
def isLocalhostHost : Host → Bool
  | Host.name s => toLowerCh s = "localhost"
  | _ => false

/-- The hostname-relevant part of a parsed URL (`new URL(url)`); an
unparsable input is represented by `none` at the call sites. -/
structure UrlParts where
  protocol : String
  host : Host
deriving DecidableEq

/-- `isSafeHttpsUrl` (index.js 470-486): parse failure, non-HTTPS scheme,
a private IP-literal host, a localhost host, a failing DNS lookup, or any
DNS record in a private range all reject; `dns` is the resolver oracle. -/
def isSafeHttpsUrl (dns : Host → Option (List Host)) (parsed : Option UrlParts) :
    Bool :=
  match parsed with
  | none => false
  | some u =>
    if u.protocol ≠ "https:" then false
    else if isIpHost u.host && isPrivateIp u.host then false
    else if isLocalhostHost u.host then false
    else
      match dns u.host with
      | none => false
      | some records => records.all (fun r => !isPrivateIp r)

/-- The observable part of a fetched image response: `ok` status, the final
`response.url` (empty string models an absent value), the media type after
`split(';')[0]`, the optional `Content-Length` header, and the body as a
chunk-size sequence (`none` models a null body; chunk bytes are modelled by
their counts, the only feature the control flow consults). -/
structure FetchResponse where
  ok : Bool
  responseUrl : String
  contentType : String
  contentLength : Option Nat
  body : Option (List Nat)
deriving DecidableEq

/-- The result of `fetchImageAsDataUrl`: `blocked` is the null return,
`passthroughUrl` the GIF passthrough, and `dataPayload` the inlined data URL
(carrying its media type and byte count). -/
inductive FetchResult where
  | blocked
  | passthroughUrl (u : String)
  | dataPayload (mime : String) (bytes : Nat)
deriving DecidableEq

/-- The streaming loop of `fetchImageAsDataUrl` (part_004 54-63): accumulate
chunk sizes and abort as soon as the running total exceeds the ceiling. -/
def streamChunks : List Nat → Nat → Option Nat
  | [], total => some total
  | c :: cs, total =>
    let t := total + c
    if t > MAX_IMAGE_BYTES then none else streamChunks cs t

/-- The tail of `fetchImageAsDataUrl` after the GIF branch (part_004 38-67):
media-type allowlist, `Content-Length` gate, null-body gate, then the
mid-stream size-capped read. -/
def fetchBody (r : FetchResponse) : FetchResult :=
  if !List.contains IMAGE_MIME r.contentType then FetchResult.blocked
  else if (match r.contentLength with
           | some n => decide (n > MAX_IMAGE_BYTES)
           | none => false) then FetchResult.blocked
  else
    match r.body with
    | none => FetchResult.blocked
    | some chunks =>
      match streamChunks chunks 0 with
      | none => FetchResult.blocked
      | some total =>
        FetchResult.dataPayload
          (if r.contentType ≠ "" then r.contentType else "image/png") total

/-- `fetchImageAsDataUrl` (part_004 5-74). Oracles: `resolver` is the
injected `resolveDirectMediaUrl`, `parse` is `new URL`, `dns` the resolver
behind `isSafeHttpsUrl`, and `world` maps a fetched URL to its response
(`none` models `fetch` throwing). The boolean reports whether the network
fetch was performed. -/
def fetchImageAsDataUrl (resolver : String → Option String)
    (parse : String → Option UrlParts) (dns : Host → Option (List Host))
    (world : String → Option FetchResponse) (url : String) :
    FetchResult × Bool :=
  let finalUrl := (resolver url).getD url
  if !isSafeHttpsUrl dns (parse finalUrl) then (FetchResult.blocked, false)
  else
    match world finalUrl with
    | none => (FetchResult.blocked, true)
    | some r =>
      if !r.ok then (FetchResult.blocked, true)
      else if r.responseUrl ≠ "" && r.responseUrl ≠ finalUrl
          && !isSafeHttpsUrl dns (parse r.responseUrl) then
        (FetchResult.blocked, true)
      else if r.contentType = "image/gif" || endsWithCh (toLowerCh finalUrl) ".gif" then
        (FetchResult.passthroughUrl (if r.responseUrl ≠ "" then r.responseUrl else finalUrl),
         true)
      else (fetchBody r, true)

/- ## services/intentRouter.js: fuzzy matching -/

/-- `normalize` (intentRouter.js 13-19): lowercase, trim, strip combining
diacritical marks (the NFD decomposition itself is modelled as the identity;
the combining-mark strip of `replace(/[̀-ͯ]/g, '')` is kept). -/
def normalizeName (s : String) : String :=
  String.mk ((trimCh (toLowerCh s)).data.filter
    (fun c => !(decide (768 ≤ c.toNat) && decide (c.toNat ≤ 879))))

/-- The ordered-subsequence loop of `fuzzyScore` (intentRouter.js 28-35):
walk the target, consuming search characters in order and counting matches;
returns the score and the unconsumed remainder of the search string. -/
def consumeSub : List Char → List Char → Nat → Nat × List Char
  | _, [], score => (score, [])
  | [], s, _score => (_score, s)
  | c :: ts, x :: xs, score =>
    if c = x then consumeSub ts xs (score + 1) else consumeSub ts (x :: xs) score

/-- `fuzzyScore` (intentRouter.js 24-37): 100 for contiguous-substring
containment, else the ordered-subsequence match count, or -1 when the search
string was not fully consumed. -/
def fuzzyScore (search target : String) : Int :=
  let s := normalizeName search
  let t := normalizeName target
  if containsSub s.data t.data then 100
  else
    let r := consumeSub t.data s.data 0
    if r.2 = [] then (r.1 : Int) else -1

/-- The best-candidate fold of `findUserByName` (intentRouter.js 83-91):
strictly-greater scores steal the slot, so the first of equal scorers wins. -/
def bestFoldBy (sc : String → Int) : List String → Option String × Int → Option String × Int
  | [], acc => acc
  | u :: us, acc =>
    if sc u > acc.2 then bestFoldBy sc us (some u, sc u) else bestFoldBy sc us (acc.1, acc.2)

/-- `findUserByName` (intentRouter.js 74-93) over the candidates' display
names (the only user field the function consults): empty search is refused,
an exact normalized match wins outright, otherwise the best fuzzy scorer is
returned when its score reaches 2. -/
def findUserByName (users : List String) (userName : String) : Option String :=
  if userName = "" then none
  else
    let norm := normalizeName userName
    match users.find? (fun u => decide (normalizeName u = norm)) with
    | some u => some u
    | none =>
      let r := bestFoldBy (fun u => fuzzyScore norm (normalizeName u)) users (none, 0)
      if r.2 ≥ 2 then r.1 else none

/-- The claim-side score, transcribed from the specification's words: the
count of characters consumed in order, with no special case for substring
containment; -1 when the search string is not fully consumable. -/
def claimSubseqScore (search target : String) : Int :=
  let s := normalizeName search
  let t := normalizeName target
  let r := consumeSub t.data s.data 0
  if r.2 = [] then (r.1 : Int) else -1

/-- The claim-side selection, transcribed from the specification's words:
exact normalized match outright, else the highest claim-side scorer with
score at least 2, first-seen winning ties. -/
def claimFuzzySelect (users : List String) (userName : String) : Option String :=
  if userName = "" then none
  else
    let norm := normalizeName userName
    match users.find? (fun u => decide (normalizeName u = norm)) with
    | some u => some u
    | none =>
      let r := bestFoldBy (fun u => claimSubseqScore norm (normalizeName u)) users (none, 0)
      if r.2 ≥ 2 then r.1 else none

/-- Running maximum of a score function over candidates. -/
def maxScoreFrom (sc : String → Int) (b : Int) : List String → Int
  | [] => b
  | u :: us => maxScoreFrom sc (max b (sc u)) us

/-- The amended selection rule stated independently of the fold: exact
normalized match outright, else the first candidate attaining the maximal
code-side `fuzzyScore` when that maximum reaches 2. -/
def specFuzzySelect (users : List String) (userName : String) : Option String :=
  if userName = "" then none
  else
    let norm := normalizeName userName
    match users.find? (fun u => decide (normalizeName u = norm)) with
    | some u => some u
    | none =>
      let sc := fun u => fuzzyScore norm (normalizeName u)
      let m := maxScoreFrom sc 0 users
      if m ≥ 2 then users.find? (fun u => decide (sc u = m)) else none

/- ## handlers/handlePrompt.js: the context assembler -/

/-- The persistent-store accesses `handlePrompt` can perform, in the order
the source performs them. -/
inductive StoreOp where
  | settingsRead
  | recordWrite
  | profileRead
  | recentUserRead
  | recentChannelRead
  | channelSummaryRead
  | guildSummaryRead
  | knownUsersRead
  | serverContextRead
  | userContextRead
deriving DecidableEq

/-- One short-term conversation turn. -/
structure Turn where
  role : String
  content : String
deriving DecidableEq

/-- The in-process short-term turn cache. -/
abbrev TurnCache := List (String × List Turn)

/-- `MAX_IMAGES` (index.js 133). -/
def MAX_IMAGES : Nat := 4

/-- Arguments of `handlePrompt` (handlePrompt.js 8-23) that reach the model;
`channelId` and `guildId` use `Option`-free / `Option` forms matching their
JavaScript truthiness checks. -/
structure PromptArgs where
  userId : String
  guildId : Option String
  channelId : String
  prompt : String
  replyContextText : String
  imageUrls : List String
  videoUrls : List String
  allowMemory : Bool
  alreadyRecorded : Bool
deriving DecidableEq

/-- The request assembled for `getLLMResponse` (handlePrompt.js 117-131). -/
structure LLMReq where
  profileSummary : String
  recentTurns : List Turn
  userContent : String
  replyContext : String
  imageInputs : List String
  recentUserMessages : List String
  recentChannelMessages : List String
  channelSummary : String
  guildSummary : String
  knownUsers : List String
  serverContext : Option String
  userContext : Option String
deriving DecidableEq

/-- Outcome of one `handlePrompt` run up to the completion call. -/
inductive PromptOutcome where
  | rateLimited (msg : Option String)
  | refused
  | completed (req : LLMReq)
deriving DecidableEq

/-- `getProfileSummary` (memory.js 585-588). -/
def getProfileSummaryD (db : Db) (userId : String) : String :=
  (getUserSettings db userId).profile_summary

/-- The human-readable timestamp prefix of the recent-message reads; the
locale rendering of `toLocaleString` is modelled by the raw numeral. -/
def fmtTimestamp (n : Nat) : String := "[" ++ toString n ++ "] "

/-- `getRecentMessages` (memory.js 590-604): most-recent-first raw log lines
for one user (insertion order stands in for the `created_at` sort key). -/
def getRecentMessagesD (db : Db) (userId : String) (limit : Nat) : List String :=
  (((db.user_messages.filter (fun m => m.user_id = userId)).reverse).take limit).map
    (fun m => fmtTimestamp m.created_at ++ m.content)

/-- `getRecentChannelMessages` (memory.js 606-621): most-recent-first lines
by other users in a channel, annotated with the cached display name. -/
def getRecentChannelMessagesD (db : Db) (channelId excludeUserId : String)
    (limit : Nat) : List String :=
  (((db.user_messages.filter
      (fun m => m.channel_id = channelId ∧ m.user_id ≠ excludeUserId)).reverse).take
    limit).map
    (fun m =>
      let name := match m.guild_id with
        | some g =>
          match alookup db.guild_users (g, m.user_id) with
          | some r => r.display_name
          | none => "User" ++ lastFour m.user_id
        | none => "User" ++ lastFour m.user_id
      fmtTimestamp m.created_at ++ "@" ++ name ++ ": " ++ m.content)

/-- `getChannelSummary` (memory.js 623-625). -/
def getChannelSummaryD (db : Db) (channelId : String) : String :=
  ((alookup db.channel_profiles channelId).map (fun p => p.summary)).getD ""

/-- `getGuildSummary` (memory.js 627-629). -/
def getGuildSummaryD (db : Db) (guildId : String) : String :=
  ((alookup db.guild_profiles guildId).map (fun p => p.summary)).getD ""

/-- Insert into a list kept sorted by descending `last_seen_at`. -/
def insertByRecency (x : (String × String) × GuildUserRow) :
    List ((String × String) × GuildUserRow) → List ((String × String) × GuildUserRow)
  | [] => [x]
  | y :: ys =>
    if y.2.last_seen_at ≥ x.2.last_seen_at then y :: insertByRecency x ys
    else x :: y :: ys

/-- Sort guild-user rows by descending `last_seen_at`. -/
def sortByRecency (l : List ((String × String) × GuildUserRow)) :
    List ((String × String) × GuildUserRow) :=
  l.foldr insertByRecency []

/-- `getGuildUserNames` (memory.js 631-636): freshness-ordered display names
seen within the rolling 30-day window (`nowSec` is the epoch-second clock the
SQL comparison uses). -/
def getGuildUserNamesD (db : Db) (guildId : String) (limit nowSec : Nat) :
    List String :=
  ((sortByRecency (db.guild_users.filter
      (fun u => u.1.1 = guildId ∧ u.2.last_seen_at > nowSec - 30 * 24 * 60 * 60))).take
    limit).map (fun u => u.2.display_name)

/-- The memory content `handlePrompt` records (handlePrompt.js 38-51):
the prompt, annotated or replaced by synthetic image/video/reply notes. -/
def memoryContentOf (a : PromptArgs) : String :=
  let c0 := a.prompt
  let c1 :=
    if c0 = "" ∧ a.imageUrls ≠ [] then
      "User sent " ++ toString a.imageUrls.length ++ " image(s)."
    else if a.imageUrls ≠ [] then
      c0 ++ " [shared " ++ toString a.imageUrls.length ++ " image(s)]"
    else c0
  let c2 :=
    if c1 = "" ∧ a.videoUrls ≠ [] then
      "User sent " ++ toString a.videoUrls.length ++ " video(s)."
    else if a.videoUrls ≠ [] then
      c1 ++ " [shared " ++ toString a.videoUrls.length ++ " video(s)]"
    else c1
  if c2 = "" ∧ a.replyContextText ≠ "" then "User replied to a message." else c2

/-- The effective prompt (handlePrompt.js 88-102): the literal text, else a
synthetic description in image, video, reply-context priority order, then the
attached-video note is appended. -/
def effectivePromptOf (a : PromptArgs) (imageInputs : List String) : String :=
  let e0 := a.prompt
  let e1 :=
    if e0 = "" ∧ imageInputs ≠ [] then "User sent an image."
    else if e0 = "" ∧ (a.videoUrls ≠ [] ∨ (a.replyContextText ≠ "" ∧
        containsSub ("video".data) a.replyContextText.data)) then
      "User referenced a video."
    else if e0 = "" ∧ a.replyContextText ≠ "" then "Following up on the replied message."
    else e0
  if a.videoUrls ≠ [] then
    let note := "Attached video URLs:\n- " ++ String.intercalate "\n- " (a.videoUrls.take 3)
    if e1 ≠ "" then e1 ++ "\n" ++ note else note
  else e1

/-- `addTurn` (handlePrompt.js 104-109): append and keep the last six. -/
def addTurn (cache : TurnCache) (userId role content : String) :
    List Turn × TurnCache :=
  let turns := (alookup cache userId).getD []
  let updated := ((turns ++ [Turn.mk role content]).reverse.take 6).reverse
  (updated, aset cache userId updated)

/-- The rate-limit fingerprint of `handlePrompt` (handlePrompt.js 24):
prompt, reply context, and media URLs joined with a pipe. -/
def rateKeyOf (a : PromptArgs) : String :=
  String.intercalate "|" ([a.prompt, a.replyContextText] ++ a.imageUrls ++ a.videoUrls)

/-- `handlePrompt` (handlePrompt.js 8-136) up to the completion call,
returning the outcome and the trace of persistent-store accesses in source
order. `hate` abstracts the static banned-term matcher
(`containsHateSpeech`, index.js 378-384) and `fetchImg` the
image-to-data-URL resolution; the claims under study are independent of
both. `nowSec` is the epoch-second clock of the known-users SQL window. -/
def handlePromptModel (hate : String → Bool) (fetchImg : String → Option String)
    (db : Db) (rl : RLState) (cache : TurnCache) (a : PromptArgs)
    (now nowSec : Nat) : PromptOutcome × List StoreOp :=
  let rate := (checkRateLimit rl a.userId (rateKeyOf a) now).1
  if !rate.allow then (PromptOutcome.rateLimited rate.message, [])
  else if hate a.prompt || hate a.replyContextText then (PromptOutcome.refused, [])
  else
    let settings := getUserSettings db a.userId
    let doRecord := settings.memory_enabled ≠ 0 ∧ a.allowMemory ∧ ¬a.alreadyRecorded
    let recordOps := if doRecord then [StoreOp.recordWrite] else []
    let db1 := if doRecord then
        recordUserMessage ⟨a.userId, a.channelId, a.guildId, memoryContentOf a, none⟩ now db
      else db
    let memOps :=
      (if a.allowMemory then [StoreOp.profileRead, StoreOp.recentUserRead] else [])
      ++ (if a.allowMemory ∧ a.channelId ≠ "" then
            [StoreOp.recentChannelRead, StoreOp.channelSummaryRead] else [])
      ++ (if a.allowMemory ∧ a.guildId.isSome then
            [StoreOp.guildSummaryRead, StoreOp.knownUsersRead,
             StoreOp.serverContextRead, StoreOp.userContextRead] else [])
    let imageInputs := (a.imageUrls.take MAX_IMAGES).filterMap fetchImg
    let ep := effectivePromptOf a imageInputs
    let recentTurns :=
      if a.allowMemory then
        (addTurn cache a.userId "user" (if ep = "" then "..." else ep)).1
      else []
    let req : LLMReq :=
      { profileSummary := if a.allowMemory then getProfileSummaryD db1 a.userId else ""
        recentTurns := recentTurns
        userContent := ep
        replyContext := a.replyContextText
        imageInputs := imageInputs
        recentUserMessages := if a.allowMemory then getRecentMessagesD db1 a.userId 3 else []
        recentChannelMessages :=
          if a.allowMemory ∧ a.channelId ≠ "" then
            getRecentChannelMessagesD db1 a.channelId a.userId 3
          else []
        channelSummary :=
          if a.allowMemory ∧ a.channelId ≠ "" then getChannelSummaryD db1 a.channelId else ""
        guildSummary :=
          match a.guildId with
          | some g => if a.allowMemory then getGuildSummaryD db1 g else ""
          | none => ""
        knownUsers :=
          match a.guildId with
          | some g => if a.allowMemory then getGuildUserNamesD db1 g 12 nowSec else []
          | none => []
        serverContext := none
        userContext := none }
    (PromptOutcome.completed req, [StoreOp.settingsRead] ++ recordOps ++ memOps)

/- ## Concrete instances used by the examples below -/

/-- The empty database. -/
def emptyDb : Db := ⟨[], [], [], [], []⟩

/-- A database holding one recorded message and a learned summary for user
`u`. -/
def dbOneUser : Db :=
  ⟨[⟨"u", "c", some "g", "my name is Bob", 100⟩],
   [("u", ⟨1, "Name: Bob", 5, 100⟩)], [], [], []⟩

/-- Sample `recordUserMessage` arguments. -/
def sampleArgs : RecordArgs := ⟨"u", "c", some "g", "my name is Bob", some "Alice"⟩

/-- Sample prompt arguments with memory disallowed. -/
def statelessArgs : PromptArgs := ⟨"u", none, "c", "hi", "", [], [], false, false⟩

/-- A banned-term matcher that flags nothing. -/
def hateNone : String → Bool := fun _ => false

/-- An image resolver that inlines nothing. -/
def fetchNone : String → Option String := fun _ => none

/-- URL parser covering the single URL of the oversized-GIF example. -/
def parseGifEx : String → Option UrlParts := fun s =>
  if s = "https://cdn.example.com/big.gif" then
    some ⟨"https:", Host.name "cdn.example.com"⟩
  else none

/-- DNS oracle resolving the example host to a public address. -/
def dnsGifEx : Host → Option (List Host) := fun h =>
  if h = Host.name "cdn.example.com" then some [Host.ip4 93 184 216 34] else none

/-- Fetch oracle returning an OK GIF response whose body holds six mebibytes,
above the five-mebibyte ceiling. -/
def worldGifEx : String → Option FetchResponse := fun s =>
  if s = "https://cdn.example.com/big.gif" then
    some ⟨true, "", "image/gif", none, some [6291456]⟩
  else none

/-- Sample single-attempt responses for the completion client. -/
def okAttempt : HttpAttempt := ⟨true, "", some (some "sure thing")⟩

/-- A non-2xx response whose body names the missing vision capability. -/
def visionFailAttempt : HttpAttempt := ⟨false, "image input is unsupported for this model", none⟩

/-- A non-2xx response with an unrelated error body. -/
def plainFailAttempt : HttpAttempt := ⟨false, "rate limited", none⟩

/- ## Helper lemmas -/

theorem alookup_aset_self {α β : Type} [DecidableEq α] (l : List (α × β)) (k : α) (v : β) :
    alookup (aset l k v) k = some v := by
  induction l with
  | nil => simp [aset, alookup]
  | cons h t ih =>
    by_cases hk : h.1 = k
    · simp [aset, hk, alookup]
    · simp [aset, hk, alookup, ih]

theorem alookup_aset_ne {α β : Type} [DecidableEq α] (l : List (α × β)) (k k2 : α) (v : β)
    (h : k2 ≠ k) : alookup (aset l k v) k2 = alookup l k2 := by
  have h2 : ¬k = k2 := fun hh => h hh.symm
  induction l with
  | nil => simp [aset, alookup, h2]
  | cons hd t ih =>
    by_cases hk : hd.1 = k
    · rw [aset]
      simp only [hk, if_true]
      rw [alookup, alookup]
      simp only [h2, if_false, hk]
    · rw [aset]
      simp only [hk, if_false]
      rw [alookup, alookup]
      by_cases hk2 : hd.1 = k2
      · simp [hk2]
      · simp [hk2, ih]

theorem runPlain_injectFail_flag (steps : List (Db → Db)) (k : Nat) (db : Db)
    (hk : k < steps.length) : (runPlain (injectFail k steps) db).2 = false := by
  induction steps generalizing k db with
  | nil => simp at hk
  | cons f fs ih =>
    cases k with
    | zero => simp [injectFail, runPlain]
    | succ j =>
      have hj : j < fs.length := by simpa using hk
      simp only [injectFail, runPlain]
      simpa using ih j (f db) hj

theorem runTx_injectFail (steps : List (Db → Db)) (k : Nat) (db : Db)
    (hk : k < steps.length) : runTx (injectFail k steps) db = (db, false) := by
  unfold runTx
  simp only [runPlain_injectFail_flag steps k db hk]
  simp

theorem stepInsertMessage_proj (a : RecordArgs) (now : Nat) (db : Db) :
    (stepInsertMessage a now db).user_settings = db.user_settings
    ∧ (stepInsertMessage a now db).channel_profiles = db.channel_profiles
    ∧ (stepInsertMessage a now db).guild_profiles = db.guild_profiles
    ∧ (stepInsertMessage a now db).guild_users = db.guild_users := by
  refine ⟨rfl, rfl, rfl, rfl⟩

theorem stepUserSettings_proj (a : RecordArgs) (now : Nat) (db : Db) :
    (stepUserSettings a now db).user_messages = db.user_messages
    ∧ (stepUserSettings a now db).channel_profiles = db.channel_profiles
    ∧ (stepUserSettings a now db).guild_profiles = db.guild_profiles
    ∧ (stepUserSettings a now db).guild_users = db.guild_users := by
  refine ⟨rfl, rfl, rfl, rfl⟩

theorem stepGuildUser_proj (a : RecordArgs) (now : Nat) (db : Db) :
    (stepGuildUser a now db).user_messages = db.user_messages
    ∧ (stepGuildUser a now db).user_settings = db.user_settings
    ∧ (stepGuildUser a now db).channel_profiles = db.channel_profiles
    ∧ (stepGuildUser a now db).guild_profiles = db.guild_profiles := by
  unfold stepGuildUser
  cases a.guildId <;> cases a.displayName <;> exact ⟨rfl, rfl, rfl, rfl⟩

theorem stepChannelProfile_proj (a : RecordArgs) (now : Nat) (db : Db) :
    (stepChannelProfile a now db).user_messages = db.user_messages
    ∧ (stepChannelProfile a now db).user_settings = db.user_settings
    ∧ (stepChannelProfile a now db).guild_profiles = db.guild_profiles
    ∧ (stepChannelProfile a now db).guild_users = db.guild_users := by
  unfold stepChannelProfile
  by_cases h : a.channelId = "" <;> simp [h]

theorem stepGuildProfile_proj (a : RecordArgs) (now : Nat) (db : Db) :
    (stepGuildProfile a now db).user_messages = db.user_messages
    ∧ (stepGuildProfile a now db).user_settings = db.user_settings
    ∧ (stepGuildProfile a now db).channel_profiles = db.channel_profiles
    ∧ (stepGuildProfile a now db).guild_users = db.guild_users := by
  unfold stepGuildProfile
  cases a.guildId <;> exact ⟨rfl, rfl, rfl, rfl⟩

theorem recordUserMessage_eq (a : RecordArgs) (now : Nat) (db : Db) :
    recordUserMessage a now db =
      stepGuildProfile a now (stepChannelProfile a now
        (stepGuildUser a now (stepUserSettings a now (stepInsertMessage a now db)))) := rfl

theorem recordUserMessage_user_messages (a : RecordArgs) (now : Nat) (db : Db) :
    (recordUserMessage a now db).user_messages =
      db.user_messages ++ [⟨a.userId, a.channelId, a.guildId, a.content, now⟩] := by
  rw [recordUserMessage_eq]
  rw [(stepGuildProfile_proj a now _).1, (stepChannelProfile_proj a now _).1,
    (stepGuildUser_proj a now _).1, (stepUserSettings_proj a now _).1]
  rfl

theorem recordUserMessage_user_settings (a : RecordArgs) (now : Nat) (db : Db) :
    (recordUserMessage a now db).user_settings =
      (stepUserSettings a now db).user_settings := by
  rw [recordUserMessage_eq]
  rw [(stepGuildProfile_proj a now _).2.1, (stepChannelProfile_proj a now _).2.1,
    (stepGuildUser_proj a now _).2.1]
  unfold stepUserSettings
  rw [getUserSettings, (stepInsertMessage_proj a now db).1]
  rfl

theorem recordUserMessage_channel_profiles (a : RecordArgs) (now : Nat) (db : Db) :
    (recordUserMessage a now db).channel_profiles =
      (stepChannelProfile a now db).channel_profiles := by
  rw [recordUserMessage_eq]
  rw [(stepGuildProfile_proj a now _).2.2.1]
  unfold stepChannelProfile
  by_cases h : a.channelId = ""
  · simp only [h, if_true]
    rw [(stepGuildUser_proj a now _).2.2.1, (stepUserSettings_proj a now _).2.1,
      (stepInsertMessage_proj a now db).2.1]
  · simp only [h, if_false]
    rw [getChannelProfileOr, (stepGuildUser_proj a now _).2.2.1,
      (stepUserSettings_proj a now _).2.1, (stepInsertMessage_proj a now db).2.1]
    rfl

theorem recordUserMessage_guild_profiles (a : RecordArgs) (now : Nat) (db : Db) :
    (recordUserMessage a now db).guild_profiles =
      (stepGuildProfile a now db).guild_profiles := by
  rw [recordUserMessage_eq]
  have h4 : (stepChannelProfile a now (stepGuildUser a now
      (stepUserSettings a now (stepInsertMessage a now db)))).guild_profiles =
      db.guild_profiles := by
    rw [(stepChannelProfile_proj a now _).2.2.1, (stepGuildUser_proj a now _).2.2.2,
      (stepUserSettings_proj a now _).2.2.1, (stepInsertMessage_proj a now db).2.2.1]
  unfold stepGuildProfile
  cases hg : a.guildId with
  | none => exact h4
  | some g => simp only [getGuildProfileOr, h4]

/-- C1: `recordUserMessage` is one atomic unit. A storage failure injected at
any of its five statements (message insert, user-settings upsert, guild-user
upsert, channel-profile upsert, guild-profile upsert, in source order) rolls
the whole call back, so the stored state — in particular the user's
`message_count` — equals its pre-call value. When the unit commits, exactly
one message row is appended, exactly one `user_settings` row (the author's)
is updated with its count incremented, and no channel profile other than the
message's channel nor guild profile other than the message's guild is
touched. -/
theorem C1_recordUserMessage_atomic (db : Db) (a : RecordArgs) (now k : Nat)
    (hk : k < (recordSteps a now).length) :
    recordUserMessageFailAt a now k db = (db, false)
    ∧ (recordUserMessage a now db).user_messages
        = db.user_messages ++ [⟨a.userId, a.channelId, a.guildId, a.content, now⟩]
    ∧ (getUserSettings (recordUserMessage a now db) a.userId).message_count
        = (getUserSettings db a.userId).message_count + 1
    ∧ (∀ u, u ≠ a.userId →
        alookup (recordUserMessage a now db).user_settings u = alookup db.user_settings u)
    ∧ (∀ c, c ≠ a.channelId →
        alookup (recordUserMessage a now db).channel_profiles c
          = alookup db.channel_profiles c)
    ∧ (∀ g, a.guildId ≠ some g →
        alookup (recordUserMessage a now db).guild_profiles g
          = alookup db.guild_profiles g) := by
  refine ⟨runTx_injectFail _ k db hk, recordUserMessage_user_messages a now db, ?_, ?_, ?_, ?_⟩
  · rw [getUserSettings, recordUserMessage_user_settings]
    unfold stepUserSettings
    simp only [alookup_aset_self, Option.getD_some]
  · intro u hu
    rw [recordUserMessage_user_settings]
    unfold stepUserSettings
    simp only [alookup_aset_ne _ _ _ _ hu]
  · intro c hc
    rw [recordUserMessage_channel_profiles]
    unfold stepChannelProfile
    by_cases h : a.channelId = ""
    · simp only [h, if_true]
    · simp only [h, if_false, alookup_aset_ne _ _ _ _ hc]
  · intro g hg
    rw [recordUserMessage_guild_profiles]
    unfold stepGuildProfile
    cases h2 : a.guildId with
    | none => rfl
    | some g2 =>
      have hne : g ≠ g2 := by
        intro he
        exact hg (by rw [h2, he])
      simp only [alookup_aset_ne _ _ _ _ hne]

/-- Witness for C1 at a concrete store, argument set, and injection point. -/
theorem C1_witness :
    recordUserMessageFailAt sampleArgs 5000 0 dbOneUser = (dbOneUser, false) :=
  (C1_recordUserMessage_atomic dbOneUser sampleArgs 5000 0 (by decide)).1

/-- C2: the live `normalizeSummary` does NOT deduplicate by label. Recording
"my name is Bob2" over the existing summary "Name: Bob" extracts the note
"Name: Bob2", and the live merge appends it, leaving two lines labelled
"Name" instead of replacing the old one; the earlier revision's
label-replacement merge (part_002) produces the single replaced line the
claim and the specification describe. -/
theorem C2_label_duplication :
    extractSummaryNotes "my name is Bob2" = ["Name: Bob2"]
    ∧ normalizeSummary "Name: Bob" ["Name: Bob2"] = "Name: Bob\nName: Bob2"
    ∧ labelCount (normalizeSummary "Name: Bob" ["Name: Bob2"]) "Name" = 2
    ∧ normalizeSummaryRev "Name: Bob" ["Name: Bob2"] = "Name: Bob2"
    ∧ labelCount (normalizeSummaryRev "Name: Bob" ["Name: Bob2"]) "Name" = 1 := by
  refine ⟨by decide, by decide, by decide, by decide, by decide⟩

theorem due_and_should (n c s : Bool) : (((n && c) || s) && (n || s)) = ((n && c) || s) := by
  cases n <;> cases c <;> cases s <;> rfl

/-- C3: summary-refresh gating. For each scope the committed
`recordUserMessage` merges the extracted notes into the scope's summary and
stamps `last_summary_at := now` exactly when the claim-side gate holds —
notes present AND the incremented count a multiple of the cadence (20 for
user and channel scope, 30 for guild scope), OR more than 24 hours since the
scope's last refresh — and otherwise leaves summary and `last_summary_at`
unchanged while still incrementing the count. -/
theorem C3_summary_refresh_gating (db : Db) (a : RecordArgs) (now : Nat) :
    ((getUserSettings (recordUserMessage a now db) a.userId).profile_summary =
        (if claimDue 20 (extractSummaryNotes a.content)
            (getUserSettings db a.userId).message_count
            (getUserSettings db a.userId).last_summary_at now = true then
          normalizeSummary (getUserSettings db a.userId).profile_summary
            (extractSummaryNotes a.content)
        else (getUserSettings db a.userId).profile_summary)
      ∧ (getUserSettings (recordUserMessage a now db) a.userId).last_summary_at =
        (if claimDue 20 (extractSummaryNotes a.content)
            (getUserSettings db a.userId).message_count
            (getUserSettings db a.userId).last_summary_at now = true then now
        else (getUserSettings db a.userId).last_summary_at))
    ∧ (a.channelId ≠ "" →
        alookup (recordUserMessage a now db).channel_profiles a.channelId =
          some ⟨a.guildId,
            (if claimDue 20 (extractSummaryNotes a.content)
                (getChannelProfileOr db a.channelId a.guildId).message_count
                (getChannelProfileOr db a.channelId a.guildId).last_summary_at now = true then
              normalizeSummary (getChannelProfileOr db a.channelId a.guildId).summary
                (extractSummaryNotes a.content)
            else (getChannelProfileOr db a.channelId a.guildId).summary),
            (getChannelProfileOr db a.channelId a.guildId).message_count + 1,
            (if claimDue 20 (extractSummaryNotes a.content)
                (getChannelProfileOr db a.channelId a.guildId).message_count
                (getChannelProfileOr db a.channelId a.guildId).last_summary_at now = true then now
            else (getChannelProfileOr db a.channelId a.guildId).last_summary_at)⟩)
    ∧ (∀ g, a.guildId = some g →
        alookup (recordUserMessage a now db).guild_profiles g =
          some ⟨(if claimDue 30 (extractSummaryNotes a.content)
                (getGuildProfileOr db g).message_count
                (getGuildProfileOr db g).last_summary_at now = true then
              normalizeSummary (getGuildProfileOr db g).summary
                (extractSummaryNotes a.content)
            else (getGuildProfileOr db g).summary),
            (getGuildProfileOr db g).message_count + 1,
            (if claimDue 30 (extractSummaryNotes a.content)
                (getGuildProfileOr db g).message_count
                (getGuildProfileOr db g).last_summary_at now = true then now
            else (getGuildProfileOr db g).last_summary_at)⟩) := by
  refine ⟨?_, ?_, ?_⟩
  · rw [getUserSettings, recordUserMessage_user_settings]
    unfold stepUserSettings
    simp [alookup_aset_self, due_and_should, claimDue]
  · intro hc
    rw [recordUserMessage_channel_profiles]
    unfold stepChannelProfile
    simp only [hc, if_false, alookup_aset_self, due_and_should, claimDue]
  · intro g hg
    rw [recordUserMessage_guild_profiles]
    unfold stepGuildProfile
    simp only [hg, alookup_aset_self, due_and_should, claimDue]

/-- Witness for C3 at a concrete store and argument set. -/
theorem C3_witness :
    alookup (recordUserMessage sampleArgs 5000 dbOneUser).guild_profiles "g" =
      some ⟨(if claimDue 30 (extractSummaryNotes sampleArgs.content)
            (getGuildProfileOr dbOneUser "g").message_count
            (getGuildProfileOr dbOneUser "g").last_summary_at 5000 = true then
          normalizeSummary (getGuildProfileOr dbOneUser "g").summary
            (extractSummaryNotes sampleArgs.content)
        else (getGuildProfileOr dbOneUser "g").summary),
        (getGuildProfileOr dbOneUser "g").message_count + 1,
        (if claimDue 30 (extractSummaryNotes sampleArgs.content)
            (getGuildProfileOr dbOneUser "g").message_count
            (getGuildProfileOr dbOneUser "g").last_summary_at 5000 = true then 5000
        else (getGuildProfileOr dbOneUser "g").last_summary_at)⟩ :=
  (C3_summary_refresh_gating dbOneUser sampleArgs 5000).2.2 "g" rfl

theorem checkRateLimit_elapsed (st : RLState) (u p : String) (now : Nat) (e : RLEntry)
    (he : (alookup st u).getD ⟨0, "", 0⟩ = e) (h : e.lastAt + COOLDOWN_MS ≤ now) :
    checkRateLimit st u p now = (⟨true, none⟩, aset st u ⟨now, p, 0⟩) := by
  unfold checkRateLimit
  rw [he, if_neg (by omega)]

theorem checkRateLimit_dup_first (st : RLState) (u p : String) (now : Nat) (e : RLEntry)
    (he : (alookup st u).getD ⟨0, "", 0⟩ = e) (h : now < e.lastAt + COOLDOWN_MS)
    (hp : p = e.lastPrompt) (hd : e.duplicateCount = 0) :
    checkRateLimit st u p now = (⟨true, none⟩, aset st u ⟨now, e.lastPrompt, 1⟩) := by
  unfold checkRateLimit
  unfold COOLDOWN_MS at h
  rw [he, if_pos (by unfold COOLDOWN_MS; omega), if_pos hp, if_neg (by omega), hd]

theorem checkRateLimit_dup_more (st : RLState) (u p : String) (now : Nat) (e : RLEntry)
    (he : (alookup st u).getD ⟨0, "", 0⟩ = e) (h : now < e.lastAt + COOLDOWN_MS)
    (hp : p = e.lastPrompt) (hd : 1 ≤ e.duplicateCount) :
    checkRateLimit st u p now =
      (⟨false, some stopSpamMsg⟩, aset st u ⟨e.lastAt, e.lastPrompt, e.duplicateCount + 1⟩) := by
  unfold checkRateLimit
  unfold COOLDOWN_MS at h
  rw [he, if_pos (by unfold COOLDOWN_MS; omega), if_pos hp, if_pos (by omega)]

theorem checkRateLimit_distinct (st : RLState) (u p : String) (now : Nat) (e : RLEntry)
    (he : (alookup st u).getD ⟨0, "", 0⟩ = e) (h : now < e.lastAt + COOLDOWN_MS)
    (hp : ¬p = e.lastPrompt) :
    checkRateLimit st u p now = (⟨false, some chillMsg⟩, aset st u e) := by
  unfold checkRateLimit
  unfold COOLDOWN_MS at h
  rw [he, if_pos (by unfold COOLDOWN_MS; omega), if_neg hp]

/-- C4: the rate-limiter contract. With the per-identity entry `e`: a request
at or after `lastAt + 3000` is allowed and resets the stored fingerprint and
duplicate counter; inside the window an identical prompt is allowed exactly
when the duplicate counter is still zero and is rejected with the
stop-spamming line from the second identical duplicate on, while a differing
prompt is rejected with the slow-down line. For a fresh identity, three
identical requests each within 3 seconds of the previous yield
(allow, allow, reject-stop-spamming). -/
theorem C4_checkRateLimit_contract (st : RLState) (u p : String)
    (now t1 t2 t3 : Nat) (e : RLEntry) :
    ((alookup st u).getD ⟨0, "", 0⟩ = e →
      ((e.lastAt + COOLDOWN_MS ≤ now →
          checkRateLimit st u p now = (⟨true, none⟩, aset st u ⟨now, p, 0⟩))
      ∧ (now < e.lastAt + COOLDOWN_MS → p = e.lastPrompt → e.duplicateCount = 0 →
          checkRateLimit st u p now = (⟨true, none⟩, aset st u ⟨now, e.lastPrompt, 1⟩))
      ∧ (now < e.lastAt + COOLDOWN_MS → p = e.lastPrompt → 1 ≤ e.duplicateCount →
          checkRateLimit st u p now =
            (⟨false, some stopSpamMsg⟩,
             aset st u ⟨e.lastAt, e.lastPrompt, e.duplicateCount + 1⟩))
      ∧ (now < e.lastAt + COOLDOWN_MS → ¬p = e.lastPrompt →
          checkRateLimit st u p now = (⟨false, some chillMsg⟩, aset st u e))))
    ∧ (alookup st u = none → COOLDOWN_MS ≤ t1 → t2 < t1 + COOLDOWN_MS →
        t3 < t2 + COOLDOWN_MS →
        (checkRateLimit st u p t1).1 = ⟨true, none⟩
        ∧ (checkRateLimit (checkRateLimit st u p t1).2 u p t2).1 = ⟨true, none⟩
        ∧ (checkRateLimit (checkRateLimit (checkRateLimit st u p t1).2 u p t2).2
            u p t3).1 = ⟨false, some stopSpamMsg⟩) := by
  constructor
  · intro he
    exact ⟨fun h => checkRateLimit_elapsed st u p now e he h,
      fun h hp hd => checkRateLimit_dup_first st u p now e he h hp hd,
      fun h hp hd => checkRateLimit_dup_more st u p now e he h hp hd,
      fun h hp => checkRateLimit_distinct st u p now e he h hp⟩
  · intro hnone h1 h2 h3
    have e1 : checkRateLimit st u p t1 = (⟨true, none⟩, aset st u ⟨t1, p, 0⟩) := by
      refine checkRateLimit_elapsed st u p t1 ⟨0, "", 0⟩ (by rw [hnone]; rfl) ?_
      simpa using h1
    have l2 : (alookup (aset st u ⟨t1, p, 0⟩) u).getD ⟨0, "", 0⟩ = ⟨t1, p, 0⟩ := by
      rw [alookup_aset_self]
      rfl
    have e2 : checkRateLimit (aset st u ⟨t1, p, 0⟩) u p t2 =
        (⟨true, none⟩, aset (aset st u ⟨t1, p, 0⟩) u ⟨t2, p, 1⟩) :=
      checkRateLimit_dup_first _ u p t2 ⟨t1, p, 0⟩ l2 h2 rfl rfl
    have l3 : (alookup (aset (aset st u ⟨t1, p, 0⟩) u ⟨t2, p, 1⟩) u).getD ⟨0, "", 0⟩ =
        ⟨t2, p, 1⟩ := by
      rw [alookup_aset_self]
      rfl
    have e3 : checkRateLimit (aset (aset st u ⟨t1, p, 0⟩) u ⟨t2, p, 1⟩) u p t3 =
        (⟨false, some stopSpamMsg⟩,
         aset (aset (aset st u ⟨t1, p, 0⟩) u ⟨t2, p, 1⟩) u ⟨t2, p, 2⟩) :=
      checkRateLimit_dup_more _ u p t3 ⟨t2, p, 1⟩ l3 h3 rfl (Nat.le_refl 1)
    rw [e1]
    refine ⟨rfl, ?_, ?_⟩
    · rw [e2]
    · rw [e2, e3]

/-- Witness for C4: the three-identical-requests scenario at concrete times. -/
theorem C4_witness :
    (checkRateLimit (checkRateLimit (checkRateLimit [] "u" "p" 3000).2
      "u" "p" 4000).2 "u" "p" 5000).1 = ⟨false, some stopSpamMsg⟩ :=
  ((C4_checkRateLimit_contract [] "u" "p" 0 3000 4000 5000 ⟨0, "", 0⟩).2
    rfl (by decide) (by decide) (by decide)).2.2

/-- C5 counterexample: with `allowMemory = false`, `handlePrompt` still
performs a persistent-store access — the unconditional `getUserSettings`
read (handlePrompt.js 36) — so the claim that no store read is invoked
fails at this concrete input. -/
theorem C5_counterexample :
    statelessArgs.allowMemory = false
    ∧ (handlePromptModel hateNone fetchNone emptyDb [] [] statelessArgs
        1000000 5000).2 = [StoreOp.settingsRead]
    ∧ (handlePromptModel hateNone fetchNone emptyDb [] [] statelessArgs
        1000000 5000).2 ≠ [] := by
  refine ⟨rfl, by decide, by decide⟩

/-- C5 amended: with `allowMemory = false`, once the rate limiter allows the
request and the content-policy matcher stays silent, the only
persistent-store access is the unconditional user-settings read — no
recordMessage write and no profile, summary, recent-message or known-users
read — and the completion request is assembled from the literal content with
an empty recent-turn sequence and empty memory contributions. -/
theorem C5_stateless_mode (hate : String → Bool) (fetchImg : String → Option String)
    (db : Db) (rl : RLState) (cache : TurnCache) (a : PromptArgs) (now nowSec : Nat)
    (hm : a.allowMemory = false)
    (hr : (checkRateLimit rl a.userId (rateKeyOf a) now).1.allow = true)
    (hh1 : hate a.prompt = false) (hh2 : hate a.replyContextText = false) :
    (handlePromptModel hate fetchImg db rl cache a now nowSec).2 = [StoreOp.settingsRead]
    ∧ (handlePromptModel hate fetchImg db rl cache a now nowSec).1 =
        PromptOutcome.completed
          ⟨"", [], effectivePromptOf a ((a.imageUrls.take MAX_IMAGES).filterMap fetchImg),
           a.replyContextText, (a.imageUrls.take MAX_IMAGES).filterMap fetchImg,
           [], [], "", "", [], none, none⟩ := by
  cases hg : a.guildId with
  | none => constructor <;> simp [handlePromptModel, hr, hh1, hh2, hm, hg]
  | some g => constructor <;> simp [handlePromptModel, hr, hh1, hh2, hm, hg]

/-- Witness for C5 amended at a concrete input. -/
theorem C5_witness :
    (handlePromptModel hateNone fetchNone dbOneUser [] [] statelessArgs
      1000000 5000).2 = [StoreOp.settingsRead] :=
  (C5_stateless_mode hateNone fetchNone dbOneUser [] [] statelessArgs 1000000 5000
    rfl (by decide) rfl rfl).1

/-- C6: the destructive operations are NOT atomic. `forgetUser` (and
likewise `resetChannelMemory` / `resetGuildMemory`) runs its statements as
individually-committed auto-commit statements with no enclosing
`db.transaction`, unlike `recordUserMessage`. A failure injected at the
settings upsert, after the message delete committed, leaves the user's
messages gone while the summary and count survive — an observable partial
state, distinct from both the pre-call and the fully-applied state. -/
theorem C6_forgetUser_not_atomic :
    (forgetUserFailAt "u" 1 dbOneUser).2 = false
    ∧ (forgetUserFailAt "u" 1 dbOneUser).1.user_messages = []
    ∧ (getUserSettings (forgetUserFailAt "u" 1 dbOneUser).1 "u").profile_summary
        = "Name: Bob"
    ∧ (getUserSettings (forgetUserFailAt "u" 1 dbOneUser).1 "u").message_count = 5
    ∧ (forgetUserFailAt "u" 1 dbOneUser).1 ≠ dbOneUser
    ∧ (forgetUserFailAt "u" 1 dbOneUser).1 ≠ forgetUser "u" dbOneUser := by
  refine ⟨by decide, by decide, by decide, by decide, by decide, by decide⟩

/-- C7: the completion-client error contract. `getLLMResponse` is a total
function of the two attempt outcomes: a successful first attempt returns its
text after one call; the dedicated vision-unsupported error returns the
specific explanatory message with no retry; any other first failure is
retried exactly once, yielding the retry's text, the vision message, or —
when both attempts fail generically (network error, non-2xx, malformed
body) — the one fixed fallback line. -/
theorem C7_getLLMResponse_contract (hasImages : Bool) (first retry : Option HttpAttempt) :
    (∀ s, callOnce hasImages first = Except.ok s →
        getLLMResponse hasImages first retry = (s, 1))
    ∧ (callOnce hasImages first = Except.error LLMFailure.visionUnsupported →
        getLLMResponse hasImages first retry = (visionUnsupportedMsg, 1))
    ∧ (∀ m s, callOnce hasImages first = Except.error (LLMFailure.other m) →
        callOnce hasImages retry = Except.ok s →
        getLLMResponse hasImages first retry = (s, 2))
    ∧ (∀ m, callOnce hasImages first = Except.error (LLMFailure.other m) →
        callOnce hasImages retry = Except.error LLMFailure.visionUnsupported →
        getLLMResponse hasImages first retry = (visionUnsupportedMsg, 2))
    ∧ (∀ m m2, callOnce hasImages first = Except.error (LLMFailure.other m) →
        callOnce hasImages retry = Except.error (LLMFailure.other m2) →
        getLLMResponse hasImages first retry = (fallbackErrorLine, 2)) := by
  refine ⟨?_, ?_, ?_, ?_, ?_⟩
  · intro s h
    unfold getLLMResponse
    rw [h]
  · intro h
    unfold getLLMResponse
    rw [h]
  · intro m s h h2
    unfold getLLMResponse
    rw [h, h2]
  · intro m h h2
    unfold getLLMResponse
    rw [h, h2]
  · intro m m2 h h2
    unfold getLLMResponse
    rw [h, h2]

/-- Witness for C7: a first-attempt vision-capability failure maps to the
explanatory message after a single attempt. -/
theorem C7_witness :
    getLLMResponse true (some visionFailAttempt) none = (visionUnsupportedMsg, 1) :=
  (C7_getLLMResponse_contract true (some visionFailAttempt) none).2.1 rfl

theorem streamChunks_overflow (chunks : List Nat) (total : Nat)
    (ht : total ≤ MAX_IMAGE_BYTES) (h : MAX_IMAGE_BYTES < total + chunks.sum) :
    streamChunks chunks total = none := by
  induction chunks generalizing total with
  | nil =>
    simp only [List.sum_nil, Nat.add_zero] at h
    omega
  | cons c cs ih =>
    simp only [List.sum_cons] at h
    unfold streamChunks
    by_cases hc : total + c > MAX_IMAGE_BYTES
    · simp [hc]
    · simp only [hc, if_false]
      exact ih (total + c) (by omega) (by omega)

theorem fetchBody_oversized (r : FetchResponse) (chunks : List Nat)
    (hb : r.body = some chunks) (hs : MAX_IMAGE_BYTES < chunks.sum) :
    fetchBody r = FetchResult.blocked := by
  unfold fetchBody
  simp only [hb, streamChunks_overflow chunks 0 (Nat.zero_le _) (by omega)]
  split
  · rfl
  · split
    · rfl
    · rfl

/-- C8 counterexample: a safe HTTPS URL answered with an OK `image/gif`
response whose body holds six mebibytes — above the five-mebibyte ceiling —
is passed through as a URL payload instead of being aborted and nulled:
the GIF branch returns before the size-capped stream read runs. -/
theorem C8_counterexample :
    isSafeHttpsUrl dnsGifEx (parseGifEx "https://cdn.example.com/big.gif") = true
    ∧ worldGifEx "https://cdn.example.com/big.gif"
        = some ⟨true, "", "image/gif", none, some [6291456]⟩
    ∧ MAX_IMAGE_BYTES < 6291456
    ∧ fetchImageAsDataUrl fetchNone parseGifEx dnsGifEx worldGifEx
        "https://cdn.example.com/big.gif"
        = (FetchResult.passthroughUrl "https://cdn.example.com/big.gif", true)
    ∧ (fetchImageAsDataUrl fetchNone parseGifEx dnsGifEx worldGifEx
        "https://cdn.example.com/big.gif").1 ≠ FetchResult.blocked := by
  refine ⟨by decide, by decide, by decide, by decide, by decide⟩

/-- C8 amended: the image-fetch guard. An unsafe final URL — unparsable,
non-HTTPS, a private or loopback IP-literal host, or any DNS record in a
private range — yields null with no fetch performed; a fetched non-GIF
response whose cumulative body size exceeds the five-mebibyte ceiling is
aborted mid-stream and yields null even when the `Content-Length` header is
absent or understates the size; but a response taken for a GIF (by media
type or URL suffix) is passed through as a URL with no size check at all. -/
theorem C8_image_fetch_guard (resolver : String → Option String)
    (parse : String → Option UrlParts) (dns : Host → Option (List Host))
    (world : String → Option FetchResponse) (url : String) :
    (isSafeHttpsUrl dns (parse ((resolver url).getD url)) = false →
        fetchImageAsDataUrl resolver parse dns world url = (FetchResult.blocked, false))
    ∧ isSafeHttpsUrl dns none = false
    ∧ (∀ u, u.protocol ≠ "https:" → isSafeHttpsUrl dns (some u) = false)
    ∧ (∀ u, isIpHost u.host = true → isPrivateIp u.host = true →
        isSafeHttpsUrl dns (some u) = false)
    ∧ (∀ u recs rec, dns u.host = some recs → rec ∈ recs → isPrivateIp rec = true →
        isSafeHttpsUrl dns (some u) = false)
    ∧ (∀ r chunks, isSafeHttpsUrl dns (parse ((resolver url).getD url)) = true →
        world ((resolver url).getD url) = some r →
        r.contentType ≠ "image/gif" →
        endsWithCh (toLowerCh ((resolver url).getD url)) ".gif" = false →
        r.body = some chunks → MAX_IMAGE_BYTES < chunks.sum →
        fetchImageAsDataUrl resolver parse dns world url = (FetchResult.blocked, true))
    ∧ (∀ r, isSafeHttpsUrl dns (parse ((resolver url).getD url)) = true →
        world ((resolver url).getD url) = some r → r.ok = true →
        (r.responseUrl = "" ∨ r.responseUrl = (resolver url).getD url ∨
          isSafeHttpsUrl dns (parse r.responseUrl) = true) →
        (r.contentType = "image/gif" ∨
          endsWithCh (toLowerCh ((resolver url).getD url)) ".gif" = true) →
        fetchImageAsDataUrl resolver parse dns world url =
          (FetchResult.passthroughUrl
            (if r.responseUrl ≠ "" then r.responseUrl else (resolver url).getD url),
           true)) := by
  refine ⟨?_, rfl, ?_, ?_, ?_, ?_, ?_⟩
  · intro h
    unfold fetchImageAsDataUrl
    simp [h]
  · intro u h
    simp only [isSafeHttpsUrl]
    rw [if_pos h]
  · intro u h1 h2
    simp only [isSafeHttpsUrl]
    by_cases hp : u.protocol = "https:" <;> simp [hp, h1, h2]
  · intro u recs rec hdns hmem hpriv
    simp only [isSafeHttpsUrl]
    by_cases hp : u.protocol ≠ "https:"
    · rw [if_pos hp]
    · rw [if_neg hp]
      by_cases hip : (isIpHost u.host && isPrivateIp u.host) = true
      · rw [if_pos hip]
      · rw [if_neg hip]
        by_cases hl : isLocalhostHost u.host = true
        · rw [if_pos hl]
        · rw [if_neg hl, hdns, List.all_eq_false]
          exact ⟨rec, hmem, by simp [hpriv]⟩
  · intro r chunks hsafe hw hg1 hg2 hb hs
    unfold fetchImageAsDataUrl
    simp only [hsafe, hw, Bool.not_true, Bool.false_eq_true, if_false]
    cases hok : r.ok with
    | false => simp
    | true =>
      simp only [Bool.not_true, Bool.false_eq_true, if_false]
      split
      · rfl
      · rw [if_neg (by simp [hg1, hg2]), fetchBody_oversized r chunks hb hs]
  · intro r hsafe hw hok hred hgif
    unfold fetchImageAsDataUrl
    simp only [hsafe, hw, hok, Bool.not_true, Bool.false_eq_true, if_false]
    rw [if_neg (by rcases hred with h | h | h <;> simp [h])]
    rw [if_pos (by rcases hgif with h | h <;> simp [h])]

/-- Witness for C8 amended: a non-HTTPS URL is nulled with no fetch. -/
theorem C8_witness :
    fetchImageAsDataUrl fetchNone parseGifEx dnsGifEx worldGifEx "http://x"
      = (FetchResult.blocked, false) :=
  (C8_image_fetch_guard fetchNone parseGifEx dnsGifEx worldGifEx "http://x").1 (by decide)

theorem shouldHandleEdit_expired (st : EditState) (mid : String) (now : Nat) (e : EditEntry)
    (he : alookup st mid = some e) (h : EDIT_WINDOW_MS < now - e.createdAt) :
    shouldHandleEdit st mid now = (false, st) := by
  unfold shouldHandleEdit
  rw [he]
  simp only []
  rw [if_pos (by omega)]

theorem shouldHandleEdit_throttled (st : EditState) (mid : String) (now : Nat) (e : EditEntry)
    (he : alookup st mid = some e) (hw : ¬now - e.createdAt > EDIT_WINDOW_MS)
    (h : now - e.lastEditAt < EDIT_THROTTLE_MS) :
    shouldHandleEdit st mid now = (false, st) := by
  unfold shouldHandleEdit
  rw [he]
  simp only []
  rw [if_neg hw, if_pos h]

theorem shouldHandleEdit_accept (st : EditState) (mid : String) (now : Nat) (e : EditEntry)
    (he : alookup st mid = some e) (hw : ¬now - e.createdAt > EDIT_WINDOW_MS)
    (hth : ¬now - e.lastEditAt < EDIT_THROTTLE_MS) :
    shouldHandleEdit st mid now =
      (true, aset st mid ⟨e.botReplyId, e.createdAt, now⟩) := by
  unfold shouldHandleEdit
  rw [he]
  simp only []
  rw [if_neg hw, if_neg hth]

/-- C9: the edit re-processing throttle. An untracked message is never
re-processed; an edit arriving more than 60 seconds after tracking is never
re-processed; an accepted edit implies the entry was within the 60-second
window and at least 2 seconds past the previous acceptance; an edit within
2 seconds of an accepted one is suppressed; and for a message tracked at
time T, an edit at T+10s is processed, a second edit at T+11s is suppressed
by the throttle, and an edit at T+61s is refused by the window. -/
theorem C9_shouldHandleEdit_windows (st : EditState) (mid rid : String)
    (T now t1 t2 : Nat) :
    (alookup st mid = none → shouldHandleEdit st mid now = (false, st))
    ∧ (∀ e, alookup st mid = some e → EDIT_WINDOW_MS < now - e.createdAt →
        shouldHandleEdit st mid now = (false, st))
    ∧ ((shouldHandleEdit st mid now).1 = true →
        ∃ e, alookup st mid = some e ∧ now - e.createdAt ≤ EDIT_WINDOW_MS
          ∧ EDIT_THROTTLE_MS ≤ now - e.lastEditAt)
    ∧ (∀ st2, shouldHandleEdit st mid t1 = (true, st2) → t2 < t1 + EDIT_THROTTLE_MS →
        (shouldHandleEdit st2 mid t2).1 = false)
    ∧ ((shouldHandleEdit (trackReply st mid rid T) mid (T + 10000)).1 = true
        ∧ (shouldHandleEdit
            (shouldHandleEdit (trackReply st mid rid T) mid (T + 10000)).2
            mid (T + 11000)).1 = false
        ∧ (shouldHandleEdit (trackReply st mid rid T) mid (T + 61000)).1 = false) := by
  refine ⟨?_, ?_, ?_, ?_, ?_⟩
  · intro hnone
    unfold shouldHandleEdit
    rw [hnone]
  · intro e he h
    exact shouldHandleEdit_expired st mid now e he h
  · unfold shouldHandleEdit
    cases he : alookup st mid with
    | none => simp
    | some e =>
      by_cases h1 : now - e.createdAt > EDIT_WINDOW_MS
      · simp [h1]
      · by_cases h2 : now - e.lastEditAt < EDIT_THROTTLE_MS
        · simp [h1, h2]
        · intro _
          exact ⟨e, rfl, by omega, by omega⟩
  · intro st2 hacc ht
    unfold shouldHandleEdit at hacc
    cases he : alookup st mid with
    | none =>
      rw [he] at hacc
      simp at hacc
    | some e =>
      rw [he] at hacc
      simp only [] at hacc
      by_cases h1 : t1 - e.createdAt > EDIT_WINDOW_MS
      · rw [if_pos h1] at hacc
        simp at hacc
      · rw [if_neg h1] at hacc
        by_cases h2 : t1 - e.lastEditAt < EDIT_THROTTLE_MS
        · rw [if_pos h2] at hacc
          simp at hacc
        · rw [if_neg h2] at hacc
          have hst2 : st2 = aset st mid ⟨e.botReplyId, e.createdAt, t1⟩ :=
            (congrArg Prod.snd hacc).symm
          subst hst2
          unfold shouldHandleEdit
          rw [alookup_aset_self]
          simp only []
          by_cases hw : t2 - e.createdAt > EDIT_WINDOW_MS
          · rw [if_pos hw]
          · rw [if_neg hw,
              if_pos (by unfold EDIT_THROTTLE_MS at ht ⊢; omega)]
  · have l1 : alookup (trackReply st mid rid T) mid = some ⟨rid, T, 0⟩ := by
      unfold trackReply
      exact alookup_aset_self st mid ⟨rid, T, 0⟩
    have e1 : shouldHandleEdit (trackReply st mid rid T) mid (T + 10000) =
        (true, aset (trackReply st mid rid T) mid ⟨rid, T, T + 10000⟩) :=
      shouldHandleEdit_accept _ mid (T + 10000) ⟨rid, T, 0⟩ l1
        (by show ¬T + 10000 - T > EDIT_WINDOW_MS; unfold EDIT_WINDOW_MS; omega)
        (by show ¬T + 10000 - 0 < EDIT_THROTTLE_MS; unfold EDIT_THROTTLE_MS; omega)
    have l2 : alookup (aset (trackReply st mid rid T) mid ⟨rid, T, T + 10000⟩) mid =
        some ⟨rid, T, T + 10000⟩ :=
      alookup_aset_self _ mid _
    refine ⟨by rw [e1], ?_, ?_⟩
    · rw [e1]
      rw [shouldHandleEdit_throttled _ mid (T + 11000) ⟨rid, T, T + 10000⟩ l2
        (by show ¬T + 11000 - T > EDIT_WINDOW_MS; unfold EDIT_WINDOW_MS; omega)
        (by show T + 11000 - (T + 10000) < EDIT_THROTTLE_MS; unfold EDIT_THROTTLE_MS; omega)]
    · rw [shouldHandleEdit_expired _ mid (T + 61000) ⟨rid, T, 0⟩ l1
        (by show EDIT_WINDOW_MS < T + 61000 - T; unfold EDIT_WINDOW_MS; omega)]

/-- Witness for C9: an edit one second after an accepted edit is suppressed
at a concrete tracked state. -/
theorem C9_witness :
    (shouldHandleEdit [("m", EditEntry.mk "r" 0 10000)] "m" 11000).1 = false :=
  (C9_shouldHandleEdit_windows [("m", EditEntry.mk "r" 0 0)] "m" "r" 0 0
    10000 11000).2.2.2.1 [("m", EditEntry.mk "r" 0 10000)] (by decide) (by decide)

theorem maxScoreFrom_le (sc : String → Int) (b : Int) (us : List String) :
    b ≤ maxScoreFrom sc b us := by
  induction us generalizing b with
  | nil => exact le_refl b
  | cons u us ih => exact le_trans (le_max_left b (sc u)) (ih (max b (sc u)))

theorem bestFoldBy_snd (sc : String → Int) (us : List String) (b : Option String)
    (bs : Int) : (bestFoldBy sc us (b, bs)).2 = maxScoreFrom sc bs us := by
  induction us generalizing b bs with
  | nil => rfl
  | cons u us ih =>
    unfold bestFoldBy maxScoreFrom
    by_cases h : sc u > bs
    · rw [if_pos h, ih, max_eq_right (le_of_lt h)]
    · rw [if_neg h, ih, max_eq_left (not_lt.1 h)]

theorem bestFoldBy_fst_le (sc : String → Int) (us : List String) (b : Option String)
    (bs : Int) (h : maxScoreFrom sc bs us ≤ bs) : (bestFoldBy sc us (b, bs)).1 = b := by
  induction us generalizing b bs with
  | nil => rfl
  | cons u us ih =>
    unfold bestFoldBy
    unfold maxScoreFrom at h
    have hu : sc u ≤ bs := by
      have h1 : sc u ≤ max bs (sc u) := le_max_right bs (sc u)
      have h2 : max bs (sc u) ≤ maxScoreFrom sc (max bs (sc u)) us :=
        maxScoreFrom_le sc (max bs (sc u)) us
      omega
    rw [if_neg (by omega)]
    have hm : max bs (sc u) = bs := max_eq_left hu
    rw [hm] at h
    exact ih b bs h

theorem bestFoldBy_fst_max (sc : String → Int) (us : List String) :
    ∀ b bs, bs < maxScoreFrom sc bs us →
    (bestFoldBy sc us (b, bs)).1 =
      us.find? (fun u => decide (sc u = maxScoreFrom sc bs us)) := by
  induction us with
  | nil =>
    intro b bs h
    unfold maxScoreFrom at h
    omega
  | cons u us ih =>
    intro b bs h
    unfold bestFoldBy maxScoreFrom
    unfold maxScoreFrom at h
    by_cases hu : sc u > bs
    · have hm : max bs (sc u) = sc u := max_eq_right (le_of_lt hu)
      rw [if_pos hu, hm]
      rw [hm] at h
      by_cases h2 : sc u < maxScoreFrom sc (sc u) us
      · rw [ih (some u) (sc u) h2]
        rw [List.find?_cons_of_neg _ (by simp; omega)]
      · have hEq : maxScoreFrom sc (sc u) us = sc u :=
          le_antisymm (not_lt.1 h2) (maxScoreFrom_le sc (sc u) us)
        rw [bestFoldBy_fst_le sc us (some u) (sc u) (le_of_eq hEq), hEq]
        rw [List.find?_cons_of_pos _ (by simp)]
    · have hm : max bs (sc u) = bs := max_eq_left (not_lt.1 hu)
      rw [if_neg hu, hm]
      rw [hm] at h
      rw [ih b bs h]
      rw [List.find?_cons_of_neg _ (by simp; omega)]

/-- C10 counterexample: with the claim's scoring — ordered-subsequence
consumed count only, ties to the first-seen candidate — the search "abc"
over ["axbxc", "abc1"] selects "axbxc" (both score 3), but the code's
`fuzzyScore` awards 100 to "abc1" for contiguous-substring containment and
`findUserByName` selects it, so the claim's selection rule disagrees with
the code at this input. -/
theorem C10_counterexample :
    claimFuzzySelect ["axbxc", "abc1"] "abc" = some "axbxc"
    ∧ findUserByName ["axbxc", "abc1"] "abc" = some "abc1"
    ∧ claimFuzzySelect ["axbxc", "abc1"] "abc" ≠ findUserByName ["axbxc", "abc1"] "abc" := by
  refine ⟨by decide, by decide, by decide⟩

/-- C10 amended: `findUserByName` refuses an empty search, selects an exact
normalized match outright, and otherwise selects the first candidate
attaining the maximal `fuzzyScore` — 100 for contiguous-substring
containment, else the ordered-subsequence consumed count when the whole
search string is consumable and -1 otherwise — provided the maximum reaches
2; in particular "adm" over ["Admin", "Moderator"] selects "Admin" and
"xyz" over the same candidates selects nothing. -/
theorem C10_fuzzy_selection (users : List String) (name : String) :
    findUserByName users name = specFuzzySelect users name
    ∧ findUserByName ["Admin", "Moderator"] "adm" = some "Admin"
    ∧ findUserByName ["Admin", "Moderator"] "xyz" = none := by
  refine ⟨?_, by decide, by decide⟩
  unfold findUserByName specFuzzySelect
  by_cases hn : name = ""
  · simp [hn]
  · simp only [hn, if_false]
    cases hf : users.find? (fun u => decide (normalizeName u = normalizeName name)) with
    | some u => rfl
    | none =>
      simp only []
      rw [bestFoldBy_snd]
      by_cases hm : (2 : Int) ≤ maxScoreFrom
          (fun u => fuzzyScore (normalizeName name) (normalizeName u)) 0 users
      · rw [if_pos (by omega), if_pos hm]
        exact bestFoldBy_fst_max _ users none 0 (by omega)
      · rw [if_neg (by omega), if_neg hm]

/-- Witness for C10 amended: the fold-based and maximal-score selections
agree at a concrete candidate list. -/
theorem C10_witness :
    findUserByName ["Admin", "Moderator"] "oder" =
      specFuzzySelect ["Admin", "Moderator"] "oder" :=
  (C10_fuzzy_selection ["Admin", "Moderator"] "oder").1
